import Mathlib

/-!
Verification of the JSON serialization core in `src/libserialize/json.rs`.

Modelling conventions:

* Rust `f64` is modelled as the exact rationals `Rat`.  The spec's Number
  invariant excludes NaN and infinities, and no verified claim depends on
  binary rounding of `f64` arithmetic.
* Rust `~str` is modelled as `List Char` (a sequence of Unicode scalar
  values).  UTF-8 byte order coincides with code-point order, so string
  comparison is the lexicographic order on code points.
* `TreeMap<~str, Json>` lives in libcollections, outside `src/`; it is
  modelled from the spec as a key-sorted association list whose insert
  keeps the order and lets the last write win.
* Rust task failure (an `unwrap` of `None`, or fuel exhaustion of the
  bounded recursion used to model the recursive-descent parser) is the
  distinguished outcome `fatal`; it is distinct from returning an `Error`.
* Writers are pure character buffers (`MemWriter` never fails), so the
  encoder needs no error case.
-/

namespace SerJson

/-- The Json value model, from `enum Json` in json.rs: `Number(f64)`,
`String(~str)`, `Boolean(bool)`, `List(Vec<Json>)`,
`Object(~TreeMap<~str, Json>)`, `Null`. -/
inductive Json where
  | number (v : Rat)
  | string (s : List Char)
  | boolean (b : Bool)
  | list (xs : List Json)
  | object (m : List (List Char × Json))
  | null

/-- Decode errors, from `enum Error` in json.rs.  The `IoError` payload is
elided: the modelled readers and writers never fail. -/
inductive Error where
  | parseError (msg : String) (line col : Nat)
  | expectedError (expected : String) (found : List Char)
  | missingFieldError (name : String)
  | unknownVariantError (name : List Char)
  | ioError
deriving DecidableEq

/-- Result of a decoder operation: success, an `Error`, or Rust task
failure (a failed `unwrap`), modelled by `fatal`. -/
inductive Outcome (α : Type) where
  | ok (a : α)
  | err (e : Error)
  | fatal

/-- Sequencing of fallible decoder steps; mirrors the `try!` macro. -/
def obind {α β : Type} (x : Outcome α) (f : α → Outcome β) : Outcome β :=
  match x with
  | .ok a => f a
  | .err e => .err e
  | .fatal => .fatal

/-- Encoder state: the accumulated writer output plus the `spaces` and
`indent` fields of `struct Encoder`. -/
structure EncSt where
  out : List Char
  spaces : Nat
  indent : Nat
deriving DecidableEq

/-- Append characters to the encoder's writer. -/
def write (cs : List Char) (e : EncSt) : EncSt := { e with out := e.out ++ cs }

/-- The per-character escape of `escape_str`: the seven special characters
are escaped, everything else is emitted verbatim. -/
def escChar (c : Char) : List Char :=
  if c = '"' then ['\\', '"']
  else if c = '\\' then ['\\', '\\']
  else if c = '\x08' then ['\\', 'b']
  else if c = '\x0c' then ['\\', 'f']
  else if c = '\n' then ['\\', 'n']
  else if c = '\r' then ['\\', 'r']
  else if c = '\t' then ['\\', 't']
  else [c]

/-- Body of `escape_str`: the escaped character sequence. -/
def escBody : List Char → List Char
  | [] => []
  | c :: cs => escChar c ++ escBody cs

/-- `escape_str` from json.rs: a double quote, the escaped body, a double
quote. -/
def escape_str (s : List Char) : List Char := '"' :: escBody s ++ ['"']

/-- `fn spaces(n)` from json.rs: `n` space characters. -/
def spaces (n : Nat) : List Char := List.replicate n ' '

/-- Decimal digits of a natural number, most significant first. -/
def natChars (n : Nat) : List Char := Nat.toDigits 10 n

/-- Modelled from the spec: `f64::to_str_digits(v, digits)` (libstd, not
under `src/`).  Spec §4.5: "a single decimal representation with up to 6
significant fractional digits, trimmed to the canonical form (integers
print without a decimal point)"; ties round up on the magnitude as in the
libstd string conversion.  The scaled magnitude rounded half-up,
`floor(|q| * 10 ^ digits + 1 / 2)`, is computed over the naturals as
`(2 * |num| * 10 ^ digits + den) / (2 * den)`. -/
def to_str_digits (q : Rat) (digits : Nat) : List Char :=
  let p : Nat := 10 ^ digits
  let n6 : Nat := (2 * q.num.natAbs * p + q.den) / (2 * q.den)
  let ip := n6 / p
  let fp := n6 % p
  let fracRaw := natChars fp
  let frac := List.replicate (digits - fracRaw.length) '0' ++ fracRaw
  let fracTrim := (frac.reverse.dropWhile (fun c => c = '0')).reverse
  let body := natChars ip ++ (if fracTrim = [] then [] else '.' :: fracTrim)
  if q.num < 0 then '-' :: body else body

/-- `Encoder::emit_nil`. -/
def emit_nil (e : EncSt) : EncSt := write "null".data e

/-- `Encoder::emit_bool`. -/
def emit_bool (v : Bool) (e : EncSt) : EncSt :=
  if v then write "true".data e else write "false".data e

/-- `Encoder::emit_f64`: writes `f64::to_str_digits(v, 6)`. -/
def emit_f64 (v : Rat) (e : EncSt) : EncSt := write (to_str_digits v 6) e

/-- `Encoder::emit_int` and the sibling integer emitters: delegate to
`emit_f64` on the cast value. -/
def emit_int (v : Int) (e : EncSt) : EncSt := emit_f64 (v : Rat) e

/-- `Encoder::emit_str`: writes `escape_str(v)`. -/
def emit_str (v : List Char) (e : EncSt) : EncSt := write (escape_str v) e

/-- `Encoder::emit_struct`: `\x7b`, indented body, optional pretty newline,
`\x7d`.  The source writes the braces through the escaped-format-string
mechanism `r"\{"`; per spec §9 the emitted text is the verbatim brace. -/
def emit_struct (_name : List Char) (_len : Nat) (f : EncSt → EncSt) (e : EncSt) : EncSt :=
  let e := write ['\x7b'] e
  let e := { e with indent := e.indent + e.spaces }
  let e := f e
  let e := { e with indent := e.indent - e.spaces }
  let e := if e.spaces > 0 then write ('\n' :: spaces e.indent) e else e
  write ['\x7d'] e

/-- `Encoder::emit_struct_field`. -/
def emit_struct_field (name : List Char) (idx : Nat) (f : EncSt → EncSt) (e : EncSt) : EncSt :=
  let e := if idx ≠ 0 then write [','] e else e
  let e := if e.spaces > 0 then write ('\n' :: spaces e.indent) e else e
  let e := write (escape_str name ++ [':']) e
  f e

/-- `Encoder::emit_seq`.  The source line 422 reads
`try!(write!(self.wr, "\n{}"), spaces(self.indent));` -- the
`spaces(self.indent)` argument stands outside the `write!` invocation,
which does not compile (`try!` takes one argument and the format string
`"\n{}"` has no argument for its placeholder).  It is modelled here with
the argument in its intended place, as written in `emit_struct` and as
`test_write_list` expects; the sequence output still contradicts that test
because `emit_seq_elt` emits no newline or indentation before an
element. -/
def emit_seq (len : Nat) (f : EncSt → EncSt) (e : EncSt) : EncSt :=
  if len = 0 then write "[]".data e
  else
    let e := write ['['] e
    let e := { e with indent := e.indent + e.spaces }
    let e := f e
    let e := { e with indent := e.indent - e.spaces }
    let e := if e.spaces > 0 then write ('\n' :: spaces e.indent) e else e
    write [']'] e

/-- `Encoder::emit_seq_elt`: a comma for every index but the first, then
the element.  No pretty-printing branch exists in the source. -/
def emit_seq_elt (idx : Nat) (f : EncSt → EncSt) (e : EncSt) : EncSt :=
  let e := if idx ≠ 0 then write [','] e else e
  f e

/-- `Encoder::emit_map`: delegates to `emit_struct` with an empty name. -/
def emit_map (len : Nat) (f : EncSt → EncSt) (e : EncSt) : EncSt :=
  emit_struct [] len f e

/-- `Encoder::emit_map_elt_key` (json.rs lines 439-456): comma and pretty
newline as for a struct field, then the key's encoded form is buffered
into a fresh non-pretty encoder over a `MemWriter` and the buffered bytes
are wrapped by `escape_str` before `key:` is written. -/
def emit_map_elt_key (idx : Nat) (f : EncSt → EncSt) (e : EncSt) : EncSt :=
  let e := if idx ≠ 0 then write [','] e else e
  let e := if e.spaces > 0 then write ('\n' :: spaces e.indent) e else e
  let sub := f { out := [], spaces := 0, indent := 0 }
  write (escape_str sub.out ++ [':']) e

/-- `Encoder::emit_map_elt_val`: just the value. -/
def emit_map_elt_val (_idx : Nat) (f : EncSt → EncSt) (e : EncSt) : EncSt := f e

mutual
/-- `impl Encodable for Json` composed with the collaborator instances of
the elements: `~str` encodes via `emit_str`, `Vec<Json>` via `emit_seq` /
`emit_seq_elt`, and `TreeMap<~str, Json>` via `emit_map` /
`emit_map_elt_key` / `emit_map_elt_val` (the collaborator loops are
modelled from spec §6: they iterate elements in order passing the running
index).  The `emit_*` skeletons are inlined so the recursion is
structural; `encJson_list_eq`, `encElems_cons_eq`, `encJson_object_eq` and
`encEntries_cons_eq` below check the inlining against the combinators. -/
def encJson : Json → EncSt → EncSt
  | .number v, e => emit_f64 v e
  | .string s, e => emit_str s e
  | .boolean b, e => emit_bool b e
  | .list xs, e =>
    if xs.length = 0 then write "[]".data e
    else
      let e := write ['['] e
      let e := { e with indent := e.indent + e.spaces }
      let e := encElems xs 0 e
      let e := { e with indent := e.indent - e.spaces }
      let e := if e.spaces > 0 then write ('\n' :: spaces e.indent) e else e
      write [']'] e
  | .object m, e =>
    let e := write ['\x7b'] e
    let e := { e with indent := e.indent + e.spaces }
    let e := encEntries m 0 e
    let e := { e with indent := e.indent - e.spaces }
    let e := if e.spaces > 0 then write ('\n' :: spaces e.indent) e else e
    write ['\x7d'] e
  | .null, e => emit_nil e

/-- The `Encodable for Vec<Json>` element loop: `emit_seq_elt idx` for each
element, inlined. -/
def encElems : List Json → Nat → EncSt → EncSt
  | [], _, e => e
  | x :: xs, idx, e =>
    let e := if idx ≠ 0 then write [','] e else e
    let e := encJson x e
    encElems xs (idx + 1) e

/-- The `Encodable for TreeMap<~str, Json>` entry loop:
`emit_map_elt_key idx (key.encode)` then `emit_map_elt_val idx
(val.encode)` for each entry, inlined. -/
def encEntries : List (List Char × Json) → Nat → EncSt → EncSt
  | [], _, e => e
  | (k, v) :: rest, idx, e =>
    let e := if idx ≠ 0 then write [','] e else e
    let e := if e.spaces > 0 then write ('\n' :: spaces e.indent) e else e
    let sub := emit_str k { out := [], spaces := 0, indent := 0 }
    let e := write (escape_str sub.out ++ [':']) e
    let e := encJson v e
    encEntries rest (idx + 1) e
end

/-- The inlined list branch of `encJson` agrees with `emit_seq`. -/
theorem encJson_list_eq (xs : List Json) (e : EncSt) :
    encJson (.list xs) e = emit_seq xs.length (encElems xs 0) e := rfl

/-- The inlined element step of `encElems` agrees with `emit_seq_elt`. -/
theorem encElems_cons_eq (x : Json) (xs : List Json) (idx : Nat) (e : EncSt) :
    encElems (x :: xs) idx e = encElems xs (idx + 1) (emit_seq_elt idx (encJson x) e) := rfl

/-- The inlined object branch of `encJson` agrees with `emit_map`. -/
theorem encJson_object_eq (m : List (List Char × Json)) (e : EncSt) :
    encJson (.object m) e = emit_map m.length (encEntries m 0) e := rfl

/-- The inlined entry step of `encEntries` agrees with `emit_map_elt_key`
followed by `emit_map_elt_val`. -/
theorem encEntries_cons_eq (k : List Char) (v : Json)
    (rest : List (List Char × Json)) (idx : Nat) (e : EncSt) :
    encEntries ((k, v) :: rest) idx e =
      encEntries rest (idx + 1)
        (emit_map_elt_val idx (encJson v) (emit_map_elt_key idx (emit_str k) e)) := rfl

/-- `Json::to_writer`: encode on a fresh single-line encoder
(`Encoder::new`, `spaces = 0`). -/
def to_writer_str (j : Json) : List Char :=
  (encJson j { out := [], spaces := 0, indent := 0 }).out

/-- `Json::to_pretty_writer` / `Json::to_pretty_str`: encode on a fresh
pretty encoder (`Encoder::new_pretty`, `spaces = 2`). -/
def to_pretty_str (j : Json) : List Char :=
  (encJson j { out := [], spaces := 2, indent := 0 }).out

/-- `impl fmt::Show for Json` renders a value through `to_writer`; this is
the rendering used in `ExpectedError` messages. -/
def render (j : Json) : List Char := to_writer_str j

/-- Lexicographic order on strings, modelling `Ord for ~str` (UTF-8 byte
order coincides with code-point order). -/
def ltStr : List Char → List Char → Bool
  | [], [] => false
  | [], _ :: _ => true
  | _ :: _, [] => false
  | a :: s1, b :: s2 => if a < b then true else if b < a then false else ltStr s1 s2

/-- Modelled from the spec: insertion into `TreeMap<~str, Json>`
(libcollections, not under `src/`).  Spec §3: an Object is "ordered by
key"; "Duplicate keys at parse time: last write wins". -/
def insertT (m : List (List Char × Json)) (k : List Char) (v : Json) :
    List (List Char × Json) :=
  match m with
  | [] => [(k, v)]
  | (k0, v0) :: rest =>
    if ltStr k k0 then (k, v) :: (k0, v0) :: rest
    else if ltStr k0 k then (k0, v0) :: insertT rest k v
    else (k, v) :: rest

/-- Modelled from the spec: `TreeMap::find`, an exact-key lookup. -/
def findT (m : List (List Char × Json)) (k : List Char) : Option Json :=
  match m with
  | [] => none
  | (k0, v0) :: rest => if k0 = k then some v0 else findT rest k

/-- `Json::find`: on an `Object`, look the key up; otherwise `None`. -/
def Json.find (j : Json) (key : List Char) : Option Json :=
  match j with
  | .object m => findT m key
  | _ => none

/-- `Json::find_path`: fold `find` over the keys; absence anywhere
short-circuits to `None`. -/
def find_path (j : Json) (keys : List (List Char)) : Option Json :=
  match keys with
  | [] => some j
  | k :: rest =>
    match j.find k with
    | some t => find_path t rest
    | none => none

/-- Scanner state of `struct Decoder`: the remaining character iterator
`rdr`, the one-character lookahead `ch`, and the position counters. -/
structure St where
  rdr : List Char
  ch : Option Char
  line : Nat
  col : Nat
deriving DecidableEq

/-- `Decoder::bump`: pull the next character; on a newline increment
`line` and reset `col` to 1, otherwise increment `col` (also at
end-of-input, because the condition inspects the new `ch`). -/
def bump (s : St) : St :=
  match s.rdr with
  | [] => { rdr := [], ch := none, line := s.line, col := s.col + 1 }
  | c :: rest =>
    if c = '\n' then { rdr := rest, ch := some c, line := s.line + 1, col := 1 }
    else { rdr := rest, ch := some c, line := s.line, col := s.col + 1 }

/-- Termination measure for the character-level loops: every `bump` that
leaves a character in the lookahead strictly decreases it. -/
def St.meas (s : St) : Nat := 2 * s.rdr.length + (if s.ch.isSome then 1 else 0)

theorem bump_meas_lt (s : St) (h : (bump s).ch.isSome) : (bump s).meas < s.meas := by
  match hr : s.rdr with
  | [] => simp [bump, hr] at h
  | c :: rest =>
    simp only [bump, hr, St.meas]
    split <;> simp [List.length_cons] <;> omega

theorem bump_meas_lt2 (s : St) (h : s.ch.isSome) : (bump s).meas < s.meas := by
  match hr : s.rdr with
  | [] => simp [bump, hr, St.meas, h]
  | c :: rest =>
    simp only [bump, hr, St.meas, h]
    split <;> simp [List.length_cons] <;> omega

/-- `Decoder::ch_or_null`. -/
def ch_or_null (s : St) : Char := s.ch.getD '\x00'

/-- `Decoder::ch_is`. -/
def ch_is (s : St) (c : Char) : Bool := s.ch = some c

/-- Is a character one of `'0' .. '9'`? -/
def is_digit (c : Char) : Bool := '0' ≤ c && c ≤ '9'

/-- Numeric value of a decimal digit, `(c as int) - ('0' as int)`. -/
def digit_val (c : Char) : Nat := c.toNat - 48

/-- `Decoder::parse_whitespace`: skip space, newline, tab and carriage
return. -/
def parse_whitespace (s : St) : St :=
  if h : s.ch = some ' ' ∨ s.ch = some '\n' ∨ s.ch = some '\t' ∨ s.ch = some '\r'
  then parse_whitespace (bump s)
  else s
termination_by s.meas
decreasing_by
  exact bump_meas_lt2 s (by rcases h with h | h | h | h <;> simp [h])

/-- The short-circuiting `ident.chars().all(|c| Some(c) == self.next_char())`
of `parse_ident`: returns whether every character matched, and the scanner
state where iteration stopped. -/
def parse_ident_loop : List Char → St → Bool × St
  | [], s => (true, s)
  | c :: cs, s =>
    let s1 := bump s
    if s1.ch = some c then parse_ident_loop cs s1 else (false, s1)

/-- `Decoder::parse_ident`: match the identifier tail, then bump once
more; on any mismatch fail with `invalid syntax`. -/
def parse_ident (ident : List Char) (value : Json) (s : St) : Outcome (Json × St) :=
  match parse_ident_loop ident s with
  | (true, s1) => .ok (value, bump s1)
  | (false, s1) => .err (.parseError "invalid syntax" s1.line s1.col)

/-- The `'1' .. '9'` digit loop of `parse_integer`:
`res = res * 10 + digit`. -/
def parse_int_digits (res : Rat) (s : St) : Rat × St :=
  match h : s.ch with
  | some c =>
    if is_digit c then parse_int_digits (res * 10 + (digit_val c : Rat)) (bump s)
    else (res, s)
  | none => (res, s)
termination_by s.meas
decreasing_by
  exact bump_meas_lt2 s (by simp [h])

/-- `Decoder::parse_integer`: a single `0` forbidding a following digit,
or `1-9` followed by digits; anything else is `invalid number`. -/
def parse_integer (s : St) : Outcome (Rat × St) :=
  let c := ch_or_null s
  if c = '0' then
    let s1 := bump s
    if is_digit (ch_or_null s1) then .err (.parseError "invalid number" s1.line s1.col)
    else .ok (0, s1)
  else if is_digit c then
    .ok (parse_int_digits 0 s)
  else .err (.parseError "invalid number" s.line s.col)

/-- The digit loop of `parse_decimal`: `dec /= 10; res += digit * dec`. -/
def parse_dec_digits (res dec : Rat) (s : St) : Rat × St :=
  match h : s.ch with
  | some c =>
    if is_digit c then
      parse_dec_digits (res + (digit_val c : Rat) * (dec / 10)) (dec / 10) (bump s)
    else (res, s)
  | none => (res, s)
termination_by s.meas
decreasing_by
  exact bump_meas_lt2 s (by simp [h])

/-- `Decoder::parse_decimal`: consume the dot, require a digit, then the
fraction loop starting from `dec = 1.0`. -/
def parse_decimal (res : Rat) (s : St) : Outcome (Rat × St) :=
  let s1 := bump s
  if is_digit (ch_or_null s1) then .ok (parse_dec_digits res 1 s1)
  else .err (.parseError "invalid number" s1.line s1.col)

/-- The digit loop of `parse_exponent`: `exp = exp * 10 + digit`. -/
def parse_exp_digits (exp : Nat) (s : St) : Nat × St :=
  match h : s.ch with
  | some c =>
    if is_digit c then parse_exp_digits (exp * 10 + digit_val c) (bump s)
    else (exp, s)
  | none => (exp, s)
termination_by s.meas
decreasing_by
  exact bump_meas_lt2 s (by simp [h])

/-- `Decoder::parse_exponent`: consume `e`/`E`, an optional sign, require
a digit, accumulate the exponent, then multiply or divide by `10 ^ exp`. -/
def parse_exponent (res : Rat) (s : St) : Outcome (Rat × St) :=
  let s1 := bump s
  let step : Bool × St :=
    if ch_is s1 '+' then (false, bump s1)
    else if ch_is s1 '-' then (true, bump s1)
    else (false, s1)
  let negExp := step.1
  let s2 := step.2
  if is_digit (ch_or_null s2) then
    let r := parse_exp_digits 0 s2
    let p : Rat := (10 : Rat) ^ r.1
    .ok (if negExp then res / p else res * p, r.2)
  else .err (.parseError "invalid number" s2.line s2.col)

/-- `Decoder::parse_number`: optional sign, integer part, optional
fraction, optional exponent; the result is `neg * res`. -/
def parse_number (s : St) : Outcome (Json × St) :=
  let start : Rat × St := if ch_is s '-' then (-1, bump s) else (1, s)
  let neg := start.1
  obind (parse_integer start.2) fun r1 =>
  obind (if ch_is r1.2 '.' then parse_decimal r1.1 r1.2 else .ok r1) fun r2 =>
  obind (if ch_is r2.2 'e' ∨ ch_is r2.2 'E' then parse_exponent r2.1 r2.2 else .ok r2) fun r3 =>
  .ok (.number (neg * r3.1), r3.2)

/-- Hexadecimal value of a character as matched by the `\u` loop of
`parse_str` (digits, `a`-`f`, `A`-`F`). -/
def hex_val (c : Char) : Option Nat :=
  if is_digit c then some (digit_val c)
  else if c = 'a' ∨ c = 'A' then some 10
  else if c = 'b' ∨ c = 'B' then some 11
  else if c = 'c' ∨ c = 'C' then some 12
  else if c = 'd' ∨ c = 'D' then some 13
  else if c = 'e' ∨ c = 'E' then some 14
  else if c = 'f' ∨ c = 'F' then some 15
  else none

/-- The `\uXXXX` loop of `parse_str`: up to `k` more digits while not at
end-of-input; returns the number of iterations still missing, the parsed
value, and the final state (`k` counts down from 4 where the source counts
`i` up to 4; the source's `i != 4` test is `k != 0` here). -/
def parse_u4 : Nat → Nat → St → Outcome (Nat × Nat × St)
  | 0, n, s => .ok (0, n, s)
  | k + 1, n, s =>
    if s.ch = none then .ok (k + 1, n, s)
    else
      let s1 := bump s
      match hex_val (ch_or_null s1) with
      | some v => parse_u4 k (n * 16 + v) s1
      | none => .err (.parseError "invalid \\u escape (unrecognized hex)" s1.line s1.col)

theorem parse_u4_meas (k n : Nat) (s : St) (k2 n2 : Nat) (s2 : St)
    (h : parse_u4 k n s = .ok (k2, n2, s2)) : s2.meas ≤ s.meas := by
  induction k generalizing n s with
  | zero =>
    simp only [parse_u4] at h
    cases h
    exact Nat.le_refl _
  | succ k ih =>
    simp only [parse_u4] at h
    split at h
    · cases h
      exact Nat.le_refl _
    · split at h
      · next heq =>
        have h1 : (bump s).meas < s.meas := by
          apply bump_meas_lt2
          next hch _ _ => simp [Option.isSome_iff_ne_none, hch]
        exact Nat.le_of_lt (Nat.lt_of_le_of_lt (ih _ _ h) h1)
      · cases h

/-- `Decoder::parse_str`: the main loop with its escape flag.  The
`char::from_u32(n).unwrap()` of the `\u` branch is Rust task failure when
`n` is not a Unicode scalar value (a lone surrogate); that is `fatal`. -/
def parse_str_loop (escape : Bool) (res : List Char) (s : St) : Outcome (List Char × St) :=
  let s1 := bump s
  if hne : s1.ch = none then .err (.parseError "EOF while parsing string" s1.line s1.col)
  else
    if escape then
      match hc : ch_or_null s1 with
      | '"' => parse_str_loop false (res ++ ['"']) s1
      | '\\' => parse_str_loop false (res ++ ['\\']) s1
      | '/' => parse_str_loop false (res ++ ['/']) s1
      | 'b' => parse_str_loop false (res ++ ['\x08']) s1
      | 'f' => parse_str_loop false (res ++ ['\x0c']) s1
      | 'n' => parse_str_loop false (res ++ ['\n']) s1
      | 'r' => parse_str_loop false (res ++ ['\r']) s1
      | 't' => parse_str_loop false (res ++ ['\t']) s1
      | 'u' =>
        match hu : parse_u4 4 0 s1 with
        | .err e => .err e
        | .fatal => .fatal
        | .ok (k, n, s2) =>
          if k ≠ 0 then .err (.parseError "invalid \\u escape (not four digits)" s2.line s2.col)
          else if Nat.isValidChar n then parse_str_loop false (res ++ [Char.ofNat n]) s2
          else .fatal
      | _ => .err (.parseError "invalid escape" s1.line s1.col)
    else if ch_is s1 '\\' then parse_str_loop true res s1
    else if ch_is s1 '"' then .ok (res, bump s1)
    else parse_str_loop false (res ++ [ch_or_null s1]) s1
termination_by s.meas
decreasing_by
  all_goals first
    | exact bump_meas_lt s (by simp [Option.isSome_iff_ne_none, hne])
    | exact Nat.lt_of_le_of_lt (parse_u4_meas 4 0 (bump s) _ _ _ hu)
        (bump_meas_lt s (by simp [Option.isSome_iff_ne_none, hne]))

/-- `Decoder::parse_str` enters the loop with no escape pending and an
empty accumulator. -/
def parse_str (s : St) : Outcome (List Char × St) := parse_str_loop false [] s

mutual
/-- `Decoder::parse_value`: skip whitespace, fail at end-of-input, then
dispatch on the first character.  The recursion through lists and objects
is bounded by a fuel parameter; the top level supplies more fuel than any
input of its length can consume, so `fatal`-by-fuel never arises there. -/
def parse_value (fuel : Nat) (s : St) : Outcome (Json × St) :=
  match fuel with
  | 0 => .fatal
  | fuel + 1 =>
    let s := parse_whitespace s
    if s.ch = none then .err (.parseError "EOF while parsing value" s.line s.col)
    else
      let c := ch_or_null s
      if c = 'n' then parse_ident "ull".data Json.null s
      else if c = 't' then parse_ident "rue".data (.boolean true) s
      else if c = 'f' then parse_ident "alse".data (.boolean false) s
      else if is_digit c || c = '-' then parse_number s
      else if c = '"' then
        match parse_str s with
        | .ok r => .ok (.string r.1, r.2)
        | .err e => .err e
        | .fatal => .fatal
      else if c = '[' then parse_list fuel s
      else if c = '\x7b' then parse_object fuel s
      else .err (.parseError "invalid syntax" s.line s.col)

/-- `Decoder::parse_list` up to its loop: consume `[`, skip whitespace,
return the empty list at `]`, otherwise enter the element loop. -/
def parse_list (fuel : Nat) (s : St) : Outcome (Json × St) :=
  match fuel with
  | 0 => .fatal
  | fuel + 1 =>
    let s := bump s
    let s := parse_whitespace s
    if ch_is s ']' then .ok (.list [], bump s)
    else parse_list_loop fuel [] s

/-- The element loop of `parse_list`: value, whitespace, then `,` to
continue or `]` to finish. -/
def parse_list_loop (fuel : Nat) (values : List Json) (s : St) : Outcome (Json × St) :=
  match fuel with
  | 0 => .fatal
  | fuel + 1 =>
    match parse_value fuel s with
    | .err e => .err e
    | .fatal => .fatal
    | .ok (v, s1) =>
      let values := values ++ [v]
      let s2 := parse_whitespace s1
      if s2.ch = none then .err (.parseError "EOF while parsing list" s2.line s2.col)
      else if ch_is s2 ',' then parse_list_loop fuel values (bump s2)
      else if ch_is s2 ']' then .ok (.list values, bump s2)
      else .err (.parseError "expected `,` or `]`" s2.line s2.col)

/-- `Decoder::parse_object` up to its loop: consume `\x7b`, skip
whitespace, return the empty object at `\x7d`, otherwise enter the entry
loop. -/
def parse_object (fuel : Nat) (s : St) : Outcome (Json × St) :=
  match fuel with
  | 0 => .fatal
  | fuel + 1 =>
    let s := bump s
    let s := parse_whitespace s
    if ch_is s '\x7d' then .ok (.object [], bump s)
    else parse_object_loop fuel [] s

/-- The entry loop of `parse_object` (`while !self.eof()` with the final
`EOF while parsing object` fall-through): whitespace, string key, `:`,
value, insert, then `,` to continue or `\x7d` to finish; the `break`
branches surface as the end-of-input error at the current position. -/
def parse_object_loop (fuel : Nat) (values : List (List Char × Json)) (s : St) :
    Outcome (Json × St) :=
  match fuel with
  | 0 => .fatal
  | fuel + 1 =>
    if s.ch = none then .err (.parseError "EOF while parsing object" s.line s.col)
    else
      let s := parse_whitespace s
      if ¬ ch_is s '"' then .err (.parseError "key must be a string" s.line s.col)
      else
        match parse_str s with
        | .err e => .err e
        | .fatal => .fatal
        | .ok (key, s1) =>
          let s2 := parse_whitespace s1
          if ¬ ch_is s2 ':' then
            if s2.ch = none then .err (.parseError "EOF while parsing object" s2.line s2.col)
            else .err (.parseError "expected `:`" s2.line s2.col)
          else
            match parse_value fuel (bump s2) with
            | .err e => .err e
            | .fatal => .fatal
            | .ok (v, s3) =>
              let values := insertT values key v
              let s4 := parse_whitespace s3
              if ch_is s4 ',' then parse_object_loop fuel values (bump s4)
              else if ch_is s4 '\x7d' then .ok (.object values, bump s4)
              else if s4.ch = none then
                .err (.parseError "EOF while parsing object" s4.line s4.col)
              else .err (.parseError "expected `,` or `\x7d`" s4.line s4.col)
end

/-- `Decoder::new`: prime the scanner with one `bump` from the initial
state (`ch = '\x00'`, `line = 1`, `col = 0`). -/
def mkDecoder (input : List Char) : St :=
  bump { rdr := input, ch := some '\x00', line := 1, col := 0 }

/-- `Decoder::parse`: one value, trailing whitespace, then end-of-input is
required, otherwise `trailing characters`.  The fuel `3 * n + 8` exceeds
the parser's recursion depth on any input of `n` characters. -/
def parseTop (input : List Char) : Outcome (Json × St) :=
  let s := mkDecoder input
  match parse_value (3 * input.length + 8) s with
  | .ok (value, s1) =>
    let s2 := parse_whitespace s1
    if s2.ch = none then .ok (value, s2)
    else .err (.parseError "trailing characters" s2.line s2.col)
  | .err e => .err e
  | .fatal => .fatal

/-- `from_str` for `Json`: `Decodable for Json` pops the freshly parsed
value off the stack, so the result is exactly the parse result. -/
def from_str (input : List Char) : Outcome Json :=
  match parseTop input with
  | .ok r => .ok r.1
  | .err e => .err e
  | .fatal => .fatal

/-- Modelled from the spec: `FromStr for f64` (libstd, not under `src/`).
Spec §9: "Implement by parsing the full text with the same grammar as
top-level numbers."  Runs `parse_number` on a fresh scanner and requires
the text to be fully consumed. -/
def float_from_str (str : List Char) : Option Rat :=
  match parse_number (mkDecoder str) with
  | .ok (.number q, s1) => if s1.ch = none then some q else none
  | _ => none

/-- `Decoder::read_f64`, as a function of the popped value: a `Number`
yields its payload; a `String` falls back to `FromStr::from_str(s).unwrap()`
(task failure, `fatal`, when the text does not parse); everything else is
`ExpectedError("Number", rendering)`. -/
def read_f64 (j : Json) : Outcome Rat :=
  match j with
  | .number f => .ok f
  | .string s =>
    match float_from_str s with
    | some x => .ok x
    | none => .fatal
  | v => .err (.expectedError "Number" (render v))

/-- `Decoder::read_seq` up to the invocation of its body: pop, expect a
`List`, push the elements in reverse via `move_rev_iter`, and hand the
length to the body.  The stack holds its top at the head of the list; the
pop of an empty stack is a failed `unwrap`, hence `fatal`. -/
def read_seq_push (stack : List Json) : Outcome (Nat × List Json) :=
  match stack with
  | [] => .fatal
  | j :: rest =>
    match j with
    | .list l => .ok (l.length, l.reverse.foldl (fun st v => v :: st) rest)
    | v => .err (.expectedError "List" (render v))

/-- The map-encoding collaborator loop for a map with `int` keys and
`bool` values, modelled from spec §6: for each entry at its running index,
`emit_map_elt_key idx (key.encode)` then `emit_map_elt_val idx
(val.encode)`; an `int` encodes via `emit_int`. -/
def enc_map_entries : List (Int × Bool) → Nat → EncSt → EncSt
  | [], _, e => e
  | (k, b) :: rest, idx, e =>
    let e := emit_map_elt_key idx (emit_int k) e
    let e := emit_map_elt_val idx (emit_bool b) e
    enc_map_entries rest (idx + 1) e

/-- Encoding a `\x7b int : bool \x7d` map on a fresh single-line encoder:
`emit_map` around the entry loop. -/
def encode_map_int_bool (entries : List (Int × Bool)) : List Char :=
  (emit_map entries.length (enc_map_entries entries 0)
    { out := [], spaces := 0, indent := 0 }).out

/-- `Ord for bool` (libstd): `false < true`. -/
def ltBool (b0 b1 : Bool) : Bool := !b0 && b1

mutual
/-- `impl Ord for Json` (json.rs lines 1294-1347), the `lt` method: the
variant matches are transcribed case by case.  Payload comparisons of
lists and objects are the lexicographic `iter::order::lts` walks of
`Ord for Vec` and `Ord for TreeMap` (libstd / libcollections, modelled
from the spec: "lexicographic for String and List, key-then-value
lexicographic for Object"), inlined below so the recursion is
structural. -/
def ltJson : Json → Json → Bool
  | .number f0, w =>
    match w with
    | .number f1 => decide (f0 < f1)
    | .string _ | .boolean _ | .list _ | .object _ | .null => true
  | .string s0, w =>
    match w with
    | .number _ => false
    | .string s1 => ltStr s0 s1
    | .boolean _ | .list _ | .object _ | .null => true
  | .boolean b0, w =>
    match w with
    | .number _ | .string _ => false
    | .boolean b1 => ltBool b0 b1
    | .list _ | .object _ | .null => true
  | .list l0, w =>
    match w with
    | .number _ | .string _ | .boolean _ => false
    | .list l1 => ltListJ l0 l1
    | .object _ | .null => true
  | .object d0, w =>
    match w with
    | .number _ | .string _ | .boolean _ | .list _ => false
    | .object d1 => ltObjJ d0 d1
    | .null => true
  | .null, w =>
    match w with
    | .number _ | .string _ | .boolean _ | .list _ | .object _ => false
    | .null => true
termination_by a b => sizeOf a + sizeOf b
decreasing_by all_goals (simp_wf <;> omega)

/-- `iter::order::lts` over `Vec<Json>`: walk the pairs, deciding at the
first strict difference, an exhausted side losing ties to the longer. -/
def ltListJ : List Json → List Json → Bool
  | [], [] => false
  | [], _ :: _ => true
  | _ :: _, [] => false
  | x :: xs, y :: ys =>
    if ltJson x y then true else if ltJson y x then false else ltListJ xs ys
termination_by a b => sizeOf a + sizeOf b
decreasing_by all_goals (simp_wf <;> omega)

/-- `iter::order::lts` over `TreeMap` entries with the tuple order
`(k, v).lt`: key first, then value, inlined into the nested tests. -/
def ltObjJ : List (List Char × Json) → List (List Char × Json) → Bool
  | [], [] => false
  | [], _ :: _ => true
  | _ :: _, [] => false
  | (k0, v0) :: xs, (k1, v1) :: ys =>
    if ltStr k0 k1 then true
    else if ltStr k1 k0 then false
    else if ltJson v0 v1 then true
    else if ltJson v1 v0 then false
    else ltObjJ xs ys
termination_by a b => sizeOf a + sizeOf b
decreasing_by all_goals (simp_wf <;> omega)
end

/-- The position of each variant tag in the order that
`impl Ord for Json` ranks the tags. -/
def rank : Json → Nat
  | .number _ => 0
  | .string _ => 1
  | .boolean _ => 2
  | .list _ => 3
  | .object _ => 4
  | .null => 5

mutual
/-- Does a value contain `Null` at the top or anywhere among its
(transitive) list elements and object values?  This is exactly where the
`Null => true` arm of the source order breaks irreflexivity. -/
def containsNull : Json → Bool
  | .null => true
  | .list xs => anyNullL xs
  | .object m => anyNullO m
  | _ => false

def anyNullL : List Json → Bool
  | [] => false
  | x :: xs => containsNull x || anyNullL xs

def anyNullO : List (List Char × Json) → Bool
  | [] => false
  | (_, v) :: xs => containsNull v || anyNullO xs
end

/-! Helper lemmas shared by the claim theorems. -/

theorem foldl_flip_cons (l acc : List Json) :
    l.foldl (fun st v => v :: st) acc = l.reverse ++ acc := by
  induction l generalizing acc with
  | nil => simp
  | cons x xs ih => simp [List.foldl_cons, ih]

theorem ltStr_self (s : List Char) : ltStr s s = false := by
  induction s with
  | nil => simp [ltStr]
  | cons c cs ih => simp [ltStr, ih]

/-! The claims. -/

/-- C1: the spec claims `parse(encode(parse(j))) == parse(j)` for every
well-formed input `j`, with `encode` the non-pretty tree encoder.  The
code breaks this at `j = \x7b"a":true\x7d`: `emit_map_elt_key` buffers the
key's encoded form (already `escape_str`-quoted for a string key) and then
wraps the buffer in `escape_str` again, so the object re-encodes with the
double-escaped key `"\"a\""`, and re-parsing yields a different value.
This contradicts the source's own `test_write_object` (which expects
`\x7b"a":true\x7d`) and its round-trip assertion
`a == from_str(a.to_str())`, so the claim is met by a code bug.  The four
conjuncts evaluate parse, encode, re-parse, and the disagreement of the
two values at that failing input. -/
theorem c1_roundtrip_object_key :
    from_str "\x7b\"a\":true\x7d".data = .ok (.object [(['a'], .boolean true)]) ∧
    to_writer_str (.object [(['a'], .boolean true)]) = "\x7b\"\\\"a\\\"\":true\x7d".data ∧
    from_str "\x7b\"\\\"a\\\"\":true\x7d".data =
      .ok (.object [(['"', 'a', '"'], .boolean true)]) ∧
    Json.object [(['"', 'a', '"'], .boolean true)] ≠ Json.object [(['a'], .boolean true)] := by
  refine ⟨?_, ?_, ?_, ?_⟩
  · simp [from_str, parseTop, parse_value, parse_object, parse_object_loop, mkDecoder, bump,
      parse_whitespace, ch_or_null, ch_is, is_digit, parse_str, parse_str_loop, parse_ident,
      parse_ident_loop, obind, insertT]
  · simp [to_writer_str, encJson, encEntries, emit_str, emit_bool, write, escape_str, escBody,
      escChar, spaces]
  · simp [from_str, parseTop, parse_value, parse_object, parse_object_loop, mkDecoder, bump,
      parse_whitespace, ch_or_null, ch_is, is_digit, parse_str, parse_str_loop, parse_ident,
      parse_ident_loop, obind, insertT]
  · simp

/-- C2: the claim describes the pretty (`spaces > 0`) sequence layout as
`[`, then before each element a newline and `indent` spaces (and a comma
when the index is not 0), a trailing newline with `indent - spaces`
spaces, then `]`.  The code does not do this: `emit_seq_elt` (json.rs
lines 428-433) writes only the comma and the element, with no pretty
branch at all, and `emit_seq`'s closing `write!` line 422 passes its
indentation argument outside the macro invocation.  Pretty-encoding the
one-element sequence `[true]` therefore yields `[true\n]`, not the
`[\n  true\n]` that the claim and the source's own `test_write_list`
require. -/
theorem c2_pretty_seq_diverges :
    to_pretty_str (.list [.boolean true]) = "[true\n]".data ∧
    "[true\n]".data ≠ "[\n  true\n]".data := by
  constructor
  · simp [to_pretty_str, encJson, encElems, emit_bool, write, spaces]
  · decide

/-- C5: `read_seq` on a stack whose top is a `List` of length `n` pushes
the elements in reverse so that the new stack holds the elements in
document order ahead of the old stack, and hands `n` to the body; on any
non-`List` top it fails with `ExpectedError("List", rendering)`. -/
theorem c5_read_seq_spec :
    (∀ (xs rest : List Json),
      read_seq_push (Json.list xs :: rest) = .ok (xs.length, xs ++ rest)) ∧
    (∀ (v : Json) (rest : List Json), (∀ xs, v ≠ Json.list xs) →
      read_seq_push (v :: rest) = .err (.expectedError "List" (render v))) := by
  constructor
  · intro xs rest
    simp [read_seq_push, foldl_flip_cons]
  · intro v rest hv
    cases v with
    | list xs => exact absurd rfl (hv xs)
    | number q => rfl
    | string s => rfl
    | boolean b => rfl
    | object m => rfl
    | null => rfl

/-- C5 witness: the elements of `[Null, Boolean true]` come off the stack
first element first, and a `Null` top fails with the expected error. -/
theorem c5_read_seq_spec_witness :
    read_seq_push [Json.list [Json.null, Json.boolean true]] =
      .ok (2, [Json.null, Json.boolean true]) ∧
    read_seq_push [Json.null] = .err (.expectedError "List" (render Json.null)) :=
  ⟨c5_read_seq_spec.1 [Json.null, Json.boolean true] [],
   c5_read_seq_spec.2 Json.null [] (fun _ h => Json.noConfusion h)⟩

/-- C6: encoding the singleton map `\x7b 1 : true \x7d` with an integer
key through the map-emission path produces exactly `\x7b"1":true\x7d`:
the key's encoded form `1` is buffered by `emit_map_elt_key` into a
temporary writer and wrapped by `escape_str` into the string token `"1"`
before emission. -/
theorem c6_int_key_map_encoding :
    encode_map_int_bool [(1, true)] = "\x7b\"1\":true\x7d".data := by decide

/-- C7: parsing `00` fails with `ParseError("invalid number", 1, 2)`: the
leading `0` must not be followed by another digit, and `parse_integer`
reports the position of the second `0`. -/
theorem c7_leading_zero_error :
    from_str "00".data = .err (.parseError "invalid number" 1 2) := by
  simp [from_str, parseTop, parse_value, mkDecoder, bump, parse_whitespace, ch_or_null, ch_is,
    is_digit, parse_number, parse_integer, obind]

/-- C8: parsing the three-line input `\x7b\n  "foo":\n "bar"` fails with
`ParseError("EOF while parsing object", 3, 8)`: `bump` increments the line
and resets the column on each newline and increments the column otherwise
(including at end-of-input), so the end of input inside the object is
reported at line 3, column 8. -/
theorem c8_multiline_eof_position :
    from_str "\x7b\n  \"foo\":\n \"bar\"".data =
      .err (.parseError "EOF while parsing object" 3 8) := by
  simp [from_str, parseTop, parse_value, parse_object, parse_object_loop, mkDecoder, bump,
    parse_whitespace, ch_or_null, ch_is, is_digit, parse_str, parse_str_loop, obind, insertT]

/-- C10: `find_path` with an empty key sequence returns the value itself
for every value, object or not: the fold over zero keys performs no
lookup. -/
theorem c10_find_path_nil : ∀ v : Json, find_path v [] = some v := fun _ => rfl

mutual
theorem ltJson_self (v : Json) : ltJson v v = containsNull v := by
  cases v with
  | number a => simp [ltJson, containsNull, lt_irrefl]
  | string s => simp [ltJson, containsNull, ltStr_self]
  | boolean b => simp [ltJson, containsNull, ltBool]
  | list xs =>
    have h := ltListJ_self xs
    simp [ltJson, containsNull, h]
  | object m =>
    have h := ltObjJ_self m
    simp [ltJson, containsNull, h]
  | null => simp [ltJson, containsNull]
termination_by sizeOf v
decreasing_by all_goals (simp_wf <;> omega)

theorem ltListJ_self (xs : List Json) : ltListJ xs xs = anyNullL xs := by
  cases xs with
  | nil => simp [ltListJ, anyNullL]
  | cons x l =>
    have hx := ltJson_self x
    have hl := ltListJ_self l
    cases hc : containsNull x with
    | true => simp [ltListJ, anyNullL, hx, hc]
    | false => simp [ltListJ, anyNullL, hx, hc, hl]
termination_by sizeOf xs
decreasing_by all_goals (simp_wf <;> omega)

theorem ltObjJ_self (m : List (List Char × Json)) : ltObjJ m m = anyNullO m := by
  match m with
  | [] => simp [ltObjJ, anyNullO]
  | (k, v) :: l =>
    have hv := ltJson_self v
    have hl := ltObjJ_self l
    cases hc : containsNull v with
    | true => simp [ltObjJ, anyNullO, ltStr_self, hv, hc]
    | false => simp [ltObjJ, anyNullO, ltStr_self, hv, hc, hl]
termination_by sizeOf m
decreasing_by all_goals (simp_wf <;> omega)
end

theorem ltJson_rank (v w : Json) (h : rank v < rank w) :
    ltJson v w = true ∧ ltJson w v = false := by
  cases v <;> cases w <;> simp_all [rank, ltJson]

/-- C3 counterexample: the claim says `v < v` is false for every value,
but the `Null` arm of the source order makes `Null < Null` true. -/
theorem c3_order_counterexample : ltJson Json.null Json.null = true := by
  simp [ltJson]

/-- C3 (amended): the variant tags are ranked
Number < String < Boolean < List < Object < Null and within a tag the
payload orders are the natural ones (numeric, lexicographic string,
`false < true`, and the lexicographic list and key-then-value object
walks) -- but irreflexivity fails on `Null`: `v < v` evaluates to `true`
exactly when `v` is `Null` or contains a `Null` among its transitive list
elements or object values, and is false for every `Null`-free value. -/
theorem c3_order_amended :
    (∀ v w : Json, rank v < rank w → ltJson v w = true ∧ ltJson w v = false) ∧
    (∀ a b : Rat, ltJson (.number a) (.number b) = decide (a < b)) ∧
    (∀ s t : List Char, ltJson (.string s) (.string t) = ltStr s t) ∧
    (∀ b0 b1 : Bool, ltJson (.boolean b0) (.boolean b1) = ltBool b0 b1) ∧
    (∀ l0 l1 : List Json, ltJson (.list l0) (.list l1) = ltListJ l0 l1) ∧
    (∀ m0 m1 : List (List Char × Json), ltJson (.object m0) (.object m1) = ltObjJ m0 m1) ∧
    (∀ v : Json, ltJson v v = containsNull v) :=
  ⟨ltJson_rank, fun _ _ => by simp [ltJson], fun _ _ => by simp [ltJson],
   fun _ _ => by simp [ltJson], fun _ _ => by simp [ltJson], fun _ _ => by simp [ltJson],
   ltJson_self⟩

/-- C3 witness: the tag ranking at `Number 0` versus `Null`, and the
irreflexivity characterization at `Null` itself. -/
theorem c3_order_amended_witness :
    (ltJson (Json.number 0) Json.null = true ∧ ltJson Json.null (Json.number 0) = false) ∧
    ltJson Json.null Json.null = containsNull Json.null :=
  ⟨c3_order_amended.1 (Json.number 0) Json.null (by decide),
   c3_order_amended.2.2.2.2.2.2 Json.null⟩

/-- C4: `read_f64` returns the payload of a popped `Number`; on a popped
`String` it returns the value of the string's full text parsed with the
number grammar (the fall-back that lets numeric map keys round-trip); on
every other variant it fails with `ExpectedError("Number", rendering)`,
and that is the only error it ever produces (the unparsable-string case
is Rust task failure, not an `Error`). -/
theorem c4_read_f64_spec :
    (∀ q : Rat, read_f64 (.number q) = .ok q) ∧
    (∀ (s : List Char) (x : Rat), float_from_str s = some x →
      read_f64 (.string s) = .ok x) ∧
    (∀ v : Json, (∀ q, v ≠ .number q) → (∀ s, v ≠ .string s) →
      read_f64 v = .err (.expectedError "Number" (render v))) ∧
    (∀ (v : Json) (e : Error), read_f64 v = .err e →
      ∃ r, e = .expectedError "Number" r ∧ r = render v) := by
  refine ⟨fun q => rfl, ?_, ?_, ?_⟩
  · intro s x h
    simp [read_f64, h]
  · intro v hn hs
    cases v with
    | number q => exact absurd rfl (hn q)
    | string s => exact absurd rfl (hs s)
    | boolean b => rfl
    | list xs => rfl
    | object m => rfl
    | null => rfl
  · intro v e h
    cases v with
    | number q => simp [read_f64] at h
    | string s =>
      cases hfs : float_from_str s with
      | some x => simp [read_f64, hfs] at h
      | none => simp [read_f64, hfs] at h
    | boolean b =>
      simp only [read_f64, Outcome.err.injEq] at h
      exact ⟨render (Json.boolean b), h.symm, rfl⟩
    | list xs =>
      simp only [read_f64, Outcome.err.injEq] at h
      exact ⟨render (Json.list xs), h.symm, rfl⟩
    | object m =>
      simp only [read_f64, Outcome.err.injEq] at h
      exact ⟨render (Json.object m), h.symm, rfl⟩
    | null =>
      simp only [read_f64, Outcome.err.injEq] at h
      exact ⟨render Json.null, h.symm, rfl⟩

theorem parse_str_loop_escBody (s : List Char) :
    ∀ (acc : List Char) (c0 : Option Char) (l c : Nat),
      ∃ l2 c2,
        parse_str_loop false acc { rdr := escBody s ++ ['"'], ch := c0, line := l, col := c } =
          .ok (acc ++ s, { rdr := [], ch := none, line := l2, col := c2 }) := by
  induction s with
  | nil =>
    intro acc c0 l c
    refine ⟨l, c + 2, ?_⟩
    rw [parse_str_loop]
    simp [escBody, bump, ch_is, ch_or_null]
  | cons c0h s' ih =>
    intro acc c0 l c
    by_cases h1 : c0h = '\"'
    · subst h1
      obtain ⟨l2, c2, hrec⟩ := ih (acc ++ ['\"']) (some '\"') l (c + 2)
      refine ⟨l2, c2, ?_⟩
      rw [parse_str_loop]
      simp only [escBody, escChar, ite_false, if_pos rfl, List.cons_append,
        List.append_assoc]
      simp [bump, ch_is, ch_or_null]
      rw [parse_str_loop]
      simp [bump, ch_is, ch_or_null]
      simpa using hrec
    · by_cases h2 : c0h = '\\'
      · subst h2
        obtain ⟨l2, c2, hrec⟩ := ih (acc ++ ['\\']) (some '\\') l (c + 2)
        refine ⟨l2, c2, ?_⟩
        rw [parse_str_loop]
        simp only [escBody, escChar, h1, ite_false, if_pos rfl, List.cons_append,
          List.append_assoc]
        simp [bump, ch_is, ch_or_null]
        rw [parse_str_loop]
        simp [bump, ch_is, ch_or_null]
        simpa using hrec
      · by_cases h3 : c0h = '\x08'
        · subst h3
          obtain ⟨l2, c2, hrec⟩ := ih (acc ++ ['\x08']) (some 'b') l (c + 2)
          refine ⟨l2, c2, ?_⟩
          rw [parse_str_loop]
          simp only [escBody, escChar, h1, h2, ite_false, if_pos rfl, List.cons_append,
            List.append_assoc]
          simp [bump, ch_is, ch_or_null]
          rw [parse_str_loop]
          simp [bump, ch_is, ch_or_null]
          simpa using hrec
        · by_cases h4 : c0h = '\x0c'
          · subst h4
            obtain ⟨l2, c2, hrec⟩ := ih (acc ++ ['\x0c']) (some 'f') l (c + 2)
            refine ⟨l2, c2, ?_⟩
            rw [parse_str_loop]
            simp only [escBody, escChar, h1, h2, h3, ite_false, if_pos rfl, List.cons_append,
              List.append_assoc]
            simp [bump, ch_is, ch_or_null]
            rw [parse_str_loop]
            simp [bump, ch_is, ch_or_null]
            simpa using hrec
          · by_cases h5 : c0h = '\n'
            · subst h5
              obtain ⟨l2, c2, hrec⟩ := ih (acc ++ ['\n']) (some 'n') l (c + 2)
              refine ⟨l2, c2, ?_⟩
              rw [parse_str_loop]
              simp only [escBody, escChar, h1, h2, h3, h4, ite_false, if_pos rfl, List.cons_append,
                List.append_assoc]
              simp [bump, ch_is, ch_or_null]
              rw [parse_str_loop]
              simp [bump, ch_is, ch_or_null]
              simpa using hrec
            · by_cases h6 : c0h = '\r'
              · subst h6
                obtain ⟨l2, c2, hrec⟩ := ih (acc ++ ['\r']) (some 'r') l (c + 2)
                refine ⟨l2, c2, ?_⟩
                rw [parse_str_loop]
                simp only [escBody, escChar, h1, h2, h3, h4, h5, ite_false, if_pos rfl, List.cons_append,
                  List.append_assoc]
                simp [bump, ch_is, ch_or_null]
                rw [parse_str_loop]
                simp [bump, ch_is, ch_or_null]
                simpa using hrec
              · by_cases h7 : c0h = '\t'
                · subst h7
                  obtain ⟨l2, c2, hrec⟩ := ih (acc ++ ['\t']) (some 't') l (c + 2)
                  refine ⟨l2, c2, ?_⟩
                  rw [parse_str_loop]
                  simp only [escBody, escChar, h1, h2, h3, h4, h5, h6, ite_false, if_pos rfl, List.cons_append,
                    List.append_assoc]
                  simp [bump, ch_is, ch_or_null]
                  rw [parse_str_loop]
                  simp [bump, ch_is, ch_or_null]
                  simpa using hrec
                · · have hnl : c0h ≠ '\n' := h5
                    obtain ⟨l2, c2, hrec⟩ := ih (acc ++ [c0h]) (some c0h) l (c + 1)
                    refine ⟨l2, c2, ?_⟩
                    rw [parse_str_loop]
                    simp only [escBody, escChar, h1, h2, h3, h4, h5, h6, h7, ite_false,
                      List.cons_append, List.append_assoc, List.singleton_append]
                    simp [bump, ch_is, ch_or_null, hnl, h1, h2]
                    simpa using hrec

/-- C9: for every string of code points below U+0080, encoding
`String(s)` non-pretty and parsing the result yields exactly `String(s)`:
the escape set written by `escape_str` is the exact inverse of the escape
handling of `parse_str`, and every other character round-trips verbatim.
(The proof does not even need the code-point bound: the parser consumes
every unescaped scalar verbatim.) -/
theorem c9_ascii_string_roundtrip :
    ∀ s : List Char, (∀ c ∈ s, c.toNat < 128) →
      from_str (to_writer_str (.string s)) = .ok (.string s) := by
  intro s _
  have henc : to_writer_str (.string s) = '"' :: (escBody s ++ ['"']) := by
    simp [to_writer_str, encJson, emit_str, write, escape_str]
  rw [henc]
  obtain ⟨l2, c2, hloop⟩ := parse_str_loop_escBody s [] (some '"') 1 1
  have hfuel : 3 * ('"' :: (escBody s ++ ['"'])).length + 8
      = (3 * ('"' :: (escBody s ++ ['"'])).length + 7) + 1 := rfl
  rw [from_str, parseTop, hfuel]
  rw [parse_value]
  rw [show mkDecoder ('"' :: (escBody s ++ ['"']))
      = { rdr := escBody s ++ ['"'], ch := some '"', line := 1, col := 1 } by
    simp [mkDecoder, bump]]
  rw [show parse_whitespace { rdr := escBody s ++ ['"'], ch := some '"', line := 1, col := 1 }
      = { rdr := escBody s ++ ['"'], ch := some '"', line := 1, col := 1 } by
    rw [parse_whitespace]; simp]
  simp only [ch_or_null, Option.getD, is_digit]
  simp only [parse_str, hloop]
  simp
  rw [parse_whitespace]
  simp

/-- C9 witness: a concrete ASCII string containing every escape class
round-trips. -/
theorem c9_ascii_string_roundtrip_witness :
    from_str (to_writer_str (.string "a\"b\\c\nd\te\x08\x0c\r/ f".data)) =
      .ok (.string "a\"b\\c\nd\te\x08\x0c\r/ f".data) :=
  c9_ascii_string_roundtrip "a\"b\\c\nd\te\x08\x0c\r/ f".data (by decide)

/-- C4 witness: a `Number`, a parsable `String` and a `Null` exercise all
three behaviors of `read_f64`. -/
theorem c4_read_f64_spec_witness :
    read_f64 (.number 2) = .ok 2 ∧
    read_f64 (.string "1.5".data) = .ok ((3 : Rat) / 2) ∧
    read_f64 Json.null = .err (.expectedError "Number" "null".data) := by
  have h15 : float_from_str "1.5".data = some ((3 : Rat) / 2) := by
    simp [float_from_str, parse_number, parse_integer, parse_int_digits, parse_decimal,
      parse_dec_digits, mkDecoder, bump, ch_or_null, ch_is, is_digit, digit_val, obind]
    norm_num
  refine ⟨c4_read_f64_spec.1 2, c4_read_f64_spec.2.1 _ _ h15, ?_⟩
  have h := c4_read_f64_spec.2.2.1 Json.null (fun _ h => Json.noConfusion h)
    (fun _ h => Json.noConfusion h)
  simpa [render, to_writer_str, encJson, emit_nil, write] using h

end SerJson
